import Mathlib

/-!
# Verification of the thread-pool worker protocol

A shallow embedding of the worker-side concurrency protocol of the
`thread_pool` repository, together with theorems settling the claims about
its specification.

The embedding covers:
* `Worker::run`'s Checking phase and Settling phase (`src/worker.rs`),
* the two-queue polling discipline `Worker::check_queues` and the bounded
  non-blocking fetch `Worker::fetch_work`,
* the idle-time bookkeeping `Worker::handle_work` / `Worker::calc_idle`,
* the simple pool of `src/common.rs` (`ThreadPool::new`, `extend`,
  `PoolState::get_next_worker_id`),
* the one-shot multi-pool registry initialization of `src/multi_pools.rs`.

Machine integers: worker ids and lengths are `usize` in the source and are
modelled as `Nat` (no arithmetic in the modelled code can overflow `usize`
in any reachable state, and no wrapping arithmetic is performed).
Graveyard entries are `i8` modelled as `Int` (only the comparison with `-1`
and the assignment of `-1` occur). Times are modelled as `Nat`
milliseconds; `SystemTime::elapsed` can fail when the clock moved
backwards, which the model reflects by returning `none` when `now < since`.
-/

namespace ThreadPoolSpec

/-- `Message` from `src/model.rs`: jobs are opaque one-shot callables, so a
job is represented by an abstract token (a `Nat` label); `Terminate`
carries the numeric target id. -/
inductive Message where
  | newJob (job : Nat)
  | terminate (target : Nat)
deriving DecidableEq, Repr

/-- `WorkCourier` from `src/worker.rs`: the per-iteration slots filled by
`unpack_message`. -/
structure WorkCourier where
  target : Option Nat
  work : Option Nat
deriving DecidableEq, Repr

/-- `Worker::unpack_message` (`src/worker.rs`): a `NewJob` fills the `work`
slot, a `Terminate` fills the `target` slot. -/
def unpack_message (message : Message) (courier : WorkCourier) : WorkCourier :=
  match message with
  | Message.newJob job => { courier with work := some job }
  | Message.terminate target => { courier with target := some target }

/-!
## Checking phase (`Worker::run`, the block under the graveyard read lock)

The graveyard is a `Vec<i8>` shared behind a `RwLock`; the Checking block
takes a read lock and decides, from the observed snapshot `g`, the
forced-close flag and the two queue-emptiness observations, whether the
worker returns (retires). All four observations are taken as parameters of
the pure decision function.
-/

/-- The Checking-phase retire decision of `Worker::run` (`src/worker.rs`
lines 166–186): under the read lock, return when `my_id >= g.len()`, when
`g[my_id] == -1`, or when `g[0] == -1 &&
(is_forced_close() || (pri_rx.is_empty() && rx.is_empty()))`. -/
def checkingRetires (my_id : Nat) (g : List Int) (forced priEmpty normEmpty : Bool) :
    Bool :=
  if my_id ≥ g.length then
    true
  else if g.getD my_id 0 = -1 then
    true
  else if g.getD 0 0 = -1 ∧ (forced = true ∨ (priEmpty = true ∧ normEmpty = true)) then
    true
  else
    false

/-!
## Settling phase: targeted termination (`Worker::run` lines 209–222)

When the courier carries a `Terminate` target, the worker takes the write
lock, marks the graveyard, and decides whether to return.
-/

/-- The targeted-termination block of `Worker::run` (`src/worker.rs` lines
209–222): under the write lock, set `g[target] = -1` when the index is in
bounds, then return exactly when `(target == 0 && is_forced_close()) ||
target == my_id`. The result is the updated graveyard together with the
retire decision. -/
def settleTerminate (my_id target : Nat) (g : List Int) (forced : Bool) :
    List Int × Bool :=
  let g' := if target < g.length then g.set target (-1) else g
  if (target = 0 ∧ forced = true) ∨ target = my_id then
    (g', true)
  else
    (g', false)

/-!
## Idle bookkeeping (`Worker::calc_idle`, `Worker::handle_work`, and the
idle computation plus self-purge check of `Worker::run`)
-/

/-- `Worker::calc_idle` (`src/worker.rs`): `since.elapsed()` when the
baseline exists; `SystemTime::elapsed` fails (and the function yields
`none`) when the clock reads earlier than the baseline. -/
def calc_idle (since : Option Nat) (now : Nat) : Option Nat :=
  match since with
  | some s => if s ≤ now then some (now - s) else none
  | none => none

/-- `Worker::handle_work` (`src/worker.rs` lines 341–353) in the case where
a job is present (its caller only passes `courier.work.take()` when
`courier.work.is_some()`): run the job, then, when a baseline exists,
compute the idle duration from the old baseline and reset the baseline to
now. Returns the idle value and the updated baseline. -/
def handle_work (since : Option Nat) (now : Nat) : Option Nat × Option Nat :=
  match since with
  | some s => (calc_idle (some s) now, some now)
  | none => (none, none)

/-- The idle computation of one `Worker::run` iteration (`src/worker.rs`
lines 196–203): if a job ran, delegate to `handle_work`; otherwise, if a
baseline exists, `calc_idle` without touching the baseline; otherwise no
idle value. Returns the idle value used in the Settling phase and the
baseline carried to the next iteration. -/
def iterationIdle (ranJob : Bool) (since : Option Nat) (now : Nat) :
    Option Nat × Option Nat :=
  if ranJob then
    handle_work since now
  else if since.isSome then
    (calc_idle since now, since)
  else
    (none, since)

/-- The idle self-purge decision of `Worker::run` (`src/worker.rs` lines
226–231): when an idle value is present, load `max_idle` and return when
`max > 0 && max <= idle.as_millis()`. -/
def selfPurge (idle : Option Nat) (max_idle : Nat) : Bool :=
  match idle with
  | some d => if 0 < max_idle ∧ max_idle ≤ d then true else false
  | none => false

/-- The initial idle baseline of the worker loop (`src/worker.rs` lines
156–160): privileged workers start with no baseline, unprivileged workers
start with the spawn time. -/
def initialSince (privileged : Bool) (now : Nat) : Option Nat :=
  if privileged then none else some now

/-!
## Two-queue polling (`Worker::fetch_work`, `Worker::check_queues`)

A channel is observed by a worker only through successive `try_recv` calls
and the `is_empty` / `is_full` snapshots. Concurrent senders make the
outcome of each `try_recv` an external input, so a channel is modelled as a
function from the poll index (how many `try_recv` calls this fetch has
already made) to the outcome of that poll; the emptiness/fullness
snapshots are separate Boolean inputs taken at the moments the source
reads them.
-/

/-- Outcome of one `crossbeam_channel::Receiver::try_recv` call. -/
inductive Poll where
  | msg (m : Message)
  | empty
  | disconnected
deriving DecidableEq, Repr

/-- Result of `Worker::fetch_work`
(`Result<Message, RecvTimeoutError>`). -/
inductive FetchResult where
  | received (m : Message)
  | timeout
  | disconnected
deriving DecidableEq, Repr

/-- `LOT_COUNTS` (`src/worker.rs`). -/
def LOT_COUNTS : Nat := 3

/-- `LONG_PARKING_ROUNDS` (`src/worker.rs`). -/
def LONG_PARKING_ROUNDS : Nat := 16

/-- `SHORT_PARKING_ROUNDS` (`src/worker.rs`). -/
def SHORT_PARKING_ROUNDS : Nat := 4

/-- The loop of `Worker::fetch_work` (`src/worker.rs` lines 321–338),
started at a given `wait` value (number of polls already made; the source
increments `wait` before each `try_recv`, so the poll made at source value
`wait = w` is poll index `w - 1` here). `fuel` bounds the recursion; the
loop body is reproduced exactly, and `fetch_work` supplies
`fuel = rounds + 1`, which the `wait > rounds` exit makes sufficient (the
fuel-exhausted branch is unreachable from `fetch_work`). The second
component counts the `try_recv` calls performed. -/
def fetchLoop (chan : Nat → Poll) (sideEmpty canSkip : Bool) (rounds : Nat) :
    Nat → Nat → FetchResult × Nat
  | _, 0 => (FetchResult.timeout, 0)
  | wait, fuel + 1 =>
    match chan wait with
    | Poll.msg m => (FetchResult.received m, 1)
    | Poll.disconnected => (FetchResult.disconnected, 1)
    | Poll.empty =>
      if canSkip && !sideEmpty then
        (FetchResult.timeout, 1)
      else if rounds < wait + 1 then
        (FetchResult.timeout, 1)
      else
        let r := fetchLoop chan sideEmpty canSkip rounds (wait + 1) fuel
        (r.1, r.2 + 1)

/-- `Worker::fetch_work` (`src/worker.rs` lines 308–339): choose the round
budget from `can_skip` and run the polling loop from `wait = 0`. Returns
the result together with the number of `try_recv` calls performed. -/
def fetch_work (main_chan : Nat → Poll) (side_chan_empty can_skip : Bool) :
    FetchResult × Nat :=
  let rounds := if can_skip then SHORT_PARKING_ROUNDS else LONG_PARKING_ROUNDS
  fetchLoop main_chan side_chan_empty can_skip rounds 0 (rounds + 1)

/-- The external observations one `Worker::check_queues` call can make:
the two channels' poll outcomes and the emptiness/fullness snapshots read
by the source (`norm_chan.is_empty()` before the priority fetch,
`norm_chan.is_full()` after a priority receive, `pri_chan.is_empty()`
before the normal fetch). -/
structure Env where
  priChan : Nat → Poll
  normChan : Nat → Poll
  normEmpty : Bool
  normFull : Bool
  priEmpty : Bool

/-- The outcome of one `Worker::check_queues` call: the returned `Status`
value, the updated `pri_work_count`, the updated courier, and how many
`try_recv` calls were made on each channel. -/
structure CQResult where
  status : Int
  count : Nat
  courier : WorkCourier
  priPolls : Nat
  normPolls : Nat
deriving DecidableEq, Repr

/-- The `pri_work_count` update applied after a priority-channel receive
(`src/worker.rs` lines 257–265): increment while below 4; at 4 or more,
set 255 when the normal channel is observed full. -/
def priCountUpdate (count : Nat) (normFull : Bool) : Nat :=
  if count < 4 then count + 1
  else if normFull then 255
  else count

/-- The normal-channel half of `Worker::check_queues` (`src/worker.rs`
lines 285–305): fetch from the normal channel with
`can_skip = id % LOT_COUNTS == 1`; a receive resets `pri_work_count` to 0,
disconnection yields status `-1`, a timeout falls through with status
`0`. -/
def normPhase (id : Nat) (e : Env) (count : Nat) (courier : WorkCourier)
    (priPolls : Nat) : CQResult :=
  let f := fetch_work e.normChan e.priEmpty (id % LOT_COUNTS == 1)
  match f.1 with
  | FetchResult.received m =>
    { status := 0, count := 0, courier := unpack_message m courier,
      priPolls := priPolls, normPolls := f.2 }
  | FetchResult.disconnected =>
    { status := -1, count := count, courier := courier,
      priPolls := priPolls, normPolls := f.2 }
  | FetchResult.timeout =>
    { status := 0, count := count, courier := courier,
      priPolls := priPolls, normPolls := f.2 }

/-- `Worker::check_queues` (`src/worker.rs` lines 236–306). When
`pri_work_count < 255`: fetch from the priority channel with
`can_skip = !(id % LOT_COUNTS == 0)`; on a receive, unpack and apply the
count update; on disconnection, status `-1`; on timeout, fall through to
the normal channel. Otherwise (`pri_work_count == 255`): skip the priority
probe, reset the count to 0, and go to the normal channel. -/
def check_queues (id : Nat) (e : Env) (count : Nat) (courier : WorkCourier) :
    CQResult :=
  if count < 255 then
    let parking := id % LOT_COUNTS == 0
    let f := fetch_work e.priChan e.normEmpty (!parking)
    match f.1 with
    | FetchResult.received m =>
      { status := 0, count := priCountUpdate count e.normFull,
        courier := unpack_message m courier, priPolls := f.2, normPolls := 0 }
    | FetchResult.disconnected =>
      { status := -1, count := count, courier := courier,
        priPolls := f.2, normPolls := 0 }
    | FetchResult.timeout =>
      normPhase id e count courier f.2
  else
    normPhase id e 0 courier 0

/-- The empty courier each loop iteration of `Worker::run` starts from
(both slots were `take`n by the previous iteration). -/
def emptyCourier : WorkCourier := { target := none, work := none }

/-- The `pri_work_count` value a worker holds after `n` calls of
`check_queues`, starting from the initial `pri_work_count = 0`
(`src/worker.rs` line 163), when the `n`-th call observes environment
`envs n`. -/
def countAfter (id : Nat) (envs : Nat → Env) : Nat → Nat
  | 0 => 0
  | n + 1 => (check_queues id (envs n) (countAfter id envs n) emptyCourier).count

/-- The observable outcome of the `n`-th `check_queues` call in the run
described by `envs`, starting from `pri_work_count = 0`. -/
def stepObs (id : Nat) (envs : Nat → Env) (n : Nat) : CQResult :=
  check_queues id (envs n) (countAfter id envs n) emptyCourier

/-- Environment in which both channels always poll empty and both
emptiness snapshots read `true` (an idle pool). -/
def idleEnv : Env :=
  { priChan := fun _ => Poll.empty, normChan := fun _ => Poll.empty,
    normEmpty := true, normFull := false, priEmpty := true }

/-- Environment in which the priority channel always delivers a job and
the normal channel is observed full (hence non-empty). -/
def priFloodFullEnv : Env :=
  { priChan := fun _ => Poll.msg (Message.newJob 7),
    normChan := fun _ => Poll.msg (Message.newJob 9),
    normEmpty := false, normFull := true, priEmpty := false }

/-- Environment in which the priority channel always delivers a job and
the normal channel is non-empty but not full (normal work pending). -/
def priFloodPendingEnv : Env :=
  { priChan := fun _ => Poll.msg (Message.newJob 7),
    normChan := fun _ => Poll.msg (Message.newJob 9),
    normEmpty := false, normFull := false, priEmpty := false }

/-!
## The simple pool of `src/common.rs`

`ThreadPool::new`, `ThreadPool::extend` and the `PoolState` queries only
manipulate the worker ids and the `last_id` counter; spawning, channels
and joining are irrelevant to the claims, so a pool is modelled by the
sequence of worker ids (in vector order) and `last_id`. -/

/-- The id-level state of `common::ThreadPool`: the ids of the `workers`
vector in order, and `last_id`. -/
structure CPool where
  workers : List Nat
  last_id : Nat
deriving DecidableEq, Repr

/-- `ThreadPool::new` (`src/common.rs` lines 29–50): clamp the size to at
least 1, then push workers with ids `start + id` for `id in 0..pool_size`
with `start = 1`; `last_id = start + pool_size - 1`. -/
def CPool.new (size : Nat) : CPool :=
  let pool_size := if size < 1 then 1 else size
  let start := 1
  { workers := (List.range pool_size).map (fun id => start + id),
    last_id := start + pool_size - 1 }

/-- `ThreadPool::extend` (`src/common.rs` lines 59–71): a no-op for
`size = 0`; otherwise push workers with ids `start + id` for
`id in 0..size` with `start = last_id + 1`, then add `size` to
`last_id`. -/
def CPool.extend (p : CPool) (size : Nat) : CPool :=
  if size = 0 then p
  else
    let start := p.last_id + 1
    { workers := p.workers ++ (List.range size).map (fun id => start + id),
      last_id := p.last_id + size }

/-- The scan of `PoolState::get_next_worker_id` (`src/common.rs` lines
136–142): walk the workers; once `found` is set, return the next worker's
id; set `found` when a worker's id equals the searched id. -/
def scanNext (current_id : Nat) : List Nat → Bool → Option Nat
  | [], _ => none
  | w :: rest, found =>
    if found then some w
    else scanNext current_id rest (w == current_id)

/-- `PoolState::get_next_worker_id` for `common::ThreadPool`
(`src/common.rs` lines 133–143): `none` when
`current_id >= workers.len()`, otherwise the scan. -/
def CPool.get_next_worker_id (p : CPool) (current_id : Nat) : Option Nat :=
  if p.workers.length ≤ current_id then none
  else scanNext current_id p.workers false

/-- The claim's description of the scan, written from its words: the id
stored immediately after the first worker whose id equals `current_id`,
or `none` when no worker has that id or it is last. -/
def nextAfterSpec (current_id : Nat) : List Nat → Option Nat
  | [] => none
  | w :: rest => if w = current_id then rest.head? else nextAfterSpec current_id rest

/-- The id sequence `1..=n`. -/
def idsUpTo (n : Nat) : List Nat := (List.range n).map (fun i => 1 + i)

/-- Well-formedness of a `CPool` id state: every stored id is between 1
and `last_id`. Holds for `CPool.new` and is preserved by
`CPool.extend`. -/
def CPool.WF (p : CPool) : Prop :=
  ∀ i ∈ p.workers, 1 ≤ i ∧ i ≤ p.last_id

/-!
## The multi-pool registry (`src/multi_pools.rs`)

The registry is a process-wide `static mut MULTI_POOL: Option<PoolStore>`
guarded by a `static ONCE: Once`. Its state is modelled by the optional
store (keyed pool sizes, in insertion order) together with whether the
`Once` has fired. A panic (the `assert!`) is modelled as `Except.error`
carrying the panic message. -/

/-- The registry state: the `MULTI_POOL` static (the store is the list of
`(key, pool size)` entries in insertion order) and whether `ONCE` has
already run. -/
structure RegistryState where
  multiPool : Option (List (String × Nat))
  onceUsed : Bool
deriving DecidableEq, Repr

/-- `HashMap::entry(key).or_insert_with(...)` as used by `create`
(`src/multi_pools.rs`): insert only when the key is absent. -/
def storeInsert (store : List (String × Nat)) (key : String) (size : Nat) :
    List (String × Nat) :=
  if store.any (fun p => p.1 == key) then store else store ++ [(key, size)]

/-- `create` (`src/multi_pools.rs` lines 163–187): build the store,
skipping empty keys and zero sizes, first occurrence of a key winning. -/
def createStore (keys : List (String × Nat)) : List (String × Nat) :=
  keys.foldl
    (fun acc kv => if kv.1 = "" ∨ kv.2 = 0 then acc else storeInsert acc kv.1 kv.2)
    []

/-- `initialize_with_auto_adjustment` (`src/multi_pools.rs` lines 49–61):
return immediately on an empty map; `assert!(!PoolStore::is_some(), ...)`
panics (modelled as `Except.error` with the panic message) when
`MULTI_POOL` is already populated; otherwise `ONCE.call_once(create)`
fills the store, at most once per process. The auto-adjust period does
not affect the registry slot itself and is dropped by the model. -/
def initialize_with_auto_adjustment (st : RegistryState)
    (keys : List (String × Nat)) (_period : Option Nat) :
    Except String RegistryState :=
  if keys.isEmpty then Except.ok st
  else if st.multiPool.isSome then
    Except.error "You are trying to initialize the thread pools multiple times!"
  else if st.onceUsed then Except.ok st
  else Except.ok { multiPool := some (createStore keys), onceUsed := true }

/-- The plain one-argument registry initializer (`src/multi_pools.rs`
lines 42–47; its source name is a reserved word here): delegates to
`initialize_with_auto_adjustment` with no period. -/
def initializePools (st : RegistryState) (keys : List (String × Nat)) :
    Except String RegistryState :=
  initialize_with_auto_adjustment st keys none

/-!
## Theorems
-/

/-- C1: in every Checking phase, the worker retires if and only if its id
is out of the graveyard's bounds, or its own slot is `-1`, or the global
slot is `-1` and additionally the forced-close flag is set or both queues
are empty; in every other case it falls through to Polling. -/
theorem c1_checking_retire_iff (my_id : Nat) (g : List Int)
    (forced priEmpty normEmpty : Bool) :
    checkingRetires my_id g forced priEmpty normEmpty = true ↔
      (my_id ≥ g.length ∨ g.getD my_id 0 = -1 ∨
        (g.getD 0 0 = -1 ∧ (forced = true ∨ (priEmpty = true ∧ normEmpty = true)))) := by
  unfold checkingRetires
  split_ifs with h1 h2 h3
  · simp only [true_iff]
    exact Or.inl h1
  · simp only [true_iff]
    exact Or.inr (Or.inl h2)
  · simp only [true_iff]
    exact Or.inr (Or.inr h3)
  · simp only [false_iff]
    rintro (h | h | h)
    · exact h1 h
    · exact h2 h
    · exact h3 h

/-- The graveyard half of `settleTerminate`: the branch on the retire
condition does not touch the updated vector. -/
lemma settleTerminate_fst (my_id target : Nat) (g : List Int) (forced : Bool) :
    (settleTerminate my_id target g forced).1 =
      if target < g.length then g.set target (-1) else g := by
  unfold settleTerminate
  split_ifs <;> rfl

/-- The retire half of `settleTerminate`. -/
lemma settleTerminate_snd (my_id target : Nat) (g : List Int) (forced : Bool) :
    (settleTerminate my_id target g forced).2 = true ↔
      (target = my_id ∨ (target = 0 ∧ forced = true)) := by
  unfold settleTerminate
  split_ifs with hb hr hr <;> simp only [true_iff, false_iff] <;> tauto

/-- C2: on a `Terminate(target)` the Settling phase marks
`graveyard[target] = -1` when the index is in bounds (leaving every other
slot and the out-of-bounds case untouched), and the worker retires exactly
when the target is its own id, or the target is 0 and the forced-close
flag is set. -/
theorem c2_settle_terminate (my_id target : Nat) (g : List Int) (forced : Bool) :
    ((settleTerminate my_id target g forced).2 = true ↔
      (target = my_id ∨ (target = 0 ∧ forced = true)))
    ∧ (target < g.length →
      ((settleTerminate my_id target g forced).1)[target]? = some (-1))
    ∧ (∀ j, j ≠ target →
      ((settleTerminate my_id target g forced).1)[j]? = g[j]?)
    ∧ (g.length ≤ target → (settleTerminate my_id target g forced).1 = g) := by
  refine ⟨settleTerminate_snd my_id target g forced, ?_, ?_, ?_⟩
  · intro hlt
    rw [settleTerminate_fst, if_pos hlt]
    exact List.getElem?_set_self hlt
  · intro j hj
    rw [settleTerminate_fst]
    split_ifs with hb
    · exact List.getElem?_set_ne (Ne.symm hj)
    · rfl
  · intro hge
    rw [settleTerminate_fst, if_neg (by omega)]

/-- C2 witness: a worker with id 1 receiving `Terminate(1)` on the
three-slot graveyard marks its slot and retires. -/
theorem c2_settle_terminate_witness :
    ((settleTerminate 1 1 ([0, 0, 0] : List Int) false).1)[1]? = some (-1)
    ∧ (settleTerminate 1 1 ([0, 0, 0] : List Int) false).2 = true := by
  obtain ⟨hiff, hset, -, -⟩ := c2_settle_terminate 1 1 ([0, 0, 0] : List Int) false
  exact ⟨hset (by decide), hiff.mpr (Or.inl rfl)⟩

/-- C4 counterexample: an unprivileged worker whose idle baseline is 0 runs
a job that completes at time 200 ms; the idle value used in Settling is
200 ms, not 0, and with `max_idle = 100` the iteration that ran the job
triggers the idle self-purge. -/
theorem c4_counterexample :
    (iterationIdle true (some 0) 200).1 = some 200
    ∧ (iterationIdle true (some 0) 200).1 ≠ some 0
    ∧ selfPurge (iterationIdle true (some 0) 200).1 100 = true := by decide

/-- C4 (amended): in an iteration that ran a job, the idle value used in
Settling is the elapsed time from the previous baseline to the moment
after the job completed (so it includes the job's execution time), the
unprivileged baseline is reset to now, a baseline-less (privileged) worker
gets no idle value, and the self-purge fires on that value exactly when
`0 < max_idle ≤ idle`. -/
theorem c4_ran_job_idle (s now : Nat) (h : s ≤ now) :
    iterationIdle true (some s) now = (some (now - s), some now)
    ∧ iterationIdle true none now = (none, none)
    ∧ (∀ max_idle, selfPurge (some (now - s)) max_idle = true ↔
        (0 < max_idle ∧ max_idle ≤ now - s)) := by
  refine ⟨?_, ?_, ?_⟩
  · simp [iterationIdle, handle_work, calc_idle, h]
  · simp [iterationIdle, handle_work]
  · intro max_idle
    simp only [selfPurge]
    split_ifs with hc
    · simpa using hc
    · simpa using hc

/-- C4 witness: the amended statement evaluated with baseline 0 and a job
completing at 200 ms. -/
theorem c4_ran_job_idle_witness :
    iterationIdle true (some 0) 200 = (some 200, some 200) := by
  have h := (c4_ran_job_idle 0 200 (by decide)).1
  simpa using h

/-- C7: with the baseline shape the worker loop maintains (`none` for
privileged workers, `some` of the last reset time otherwise), the Settling
phase purges exactly when the worker is unprivileged, `max_idle > 0` and
the idle time reached `max_idle`; moreover the baseline keeps that shape
across the iteration. -/
theorem c7_self_purge_iff (privileged ranJob : Bool) (s now max_idle : Nat)
    (h : s ≤ now) :
    (selfPurge (iterationIdle ranJob (initialSince privileged s) now).1 max_idle = true ↔
      (privileged = false ∧ 0 < max_idle ∧ max_idle ≤ now - s))
    ∧ (iterationIdle ranJob (initialSince privileged s) now).2
        = initialSince privileged (if ranJob then now else s) := by
  cases privileged with
  | true =>
    have hidle : (iterationIdle ranJob (initialSince true s) now).1 = none := by
      cases ranJob <;> simp [iterationIdle, initialSince, handle_work, calc_idle]
    refine ⟨?_, ?_⟩
    · rw [hidle]
      simp [selfPurge]
    · cases ranJob <;> simp [iterationIdle, initialSince, handle_work, calc_idle]
  | false =>
    have hidle : (iterationIdle ranJob (initialSince false s) now).1
        = some (now - s) := by
      cases ranJob <;> simp [iterationIdle, initialSince, handle_work, calc_idle, h]
    refine ⟨?_, ?_⟩
    · rw [hidle]
      simp only [selfPurge]
      split_ifs with hc
      · simp [hc]
      · simp [hc]
    · cases ranJob <;> simp [iterationIdle, initialSince, handle_work, calc_idle, h]

/-- C7 witness: an unprivileged worker with baseline 0 at time 5 ms and
`max_idle = 3` self-purges. -/
theorem c7_self_purge_witness :
    selfPurge (iterationIdle false (initialSince false 0) 5).1 3 = true :=
  ((c7_self_purge_iff false false 0 5 3 (by decide)).1).mpr
    ⟨rfl, by decide, by decide⟩

/-- C8: once the multi-pool registry slot is populated, every further call
of `initialize_with_auto_adjustment` (and of the plain initializer) with a
non-empty key map panics with the double-initialization message. -/
theorem c8_double_init_panics (st : RegistryState) (keys : List (String × Nat))
    (period : Option Nat) (hinit : st.multiPool.isSome = true) (hne : keys ≠ []) :
    initialize_with_auto_adjustment st keys period =
      Except.error "You are trying to initialize the thread pools multiple times!"
    ∧ initializePools st keys =
      Except.error "You are trying to initialize the thread pools multiple times!" := by
  have hempty : keys.isEmpty = false := by
    cases keys with
    | nil => exact absurd rfl hne
    | cons a l => rfl
  constructor
  · unfold initialize_with_auto_adjustment
    simp [hempty, hinit]
  · unfold initializePools initialize_with_auto_adjustment
    simp [hempty, hinit]

/-- C8 witness: the double-initialization panic at a concrete populated
registry and a concrete one-entry map. -/
theorem c8_double_init_witness :
    initializePools { multiPool := some [], onceUsed := true } [("a", 1)] =
      Except.error "You are trying to initialize the thread pools multiple times!" :=
  (c8_double_init_panics { multiPool := some [], onceUsed := true } [("a", 1)]
    none rfl (by decide)).2

/-- The polling loop makes at most `fuel` `try_recv` calls. -/
lemma fetchLoop_polls_le (chan : Nat → Poll) (se cs : Bool) (rounds : Nat) :
    ∀ fuel wait, (fetchLoop chan se cs rounds wait fuel).2 ≤ fuel := by
  intro fuel
  induction fuel with
  | zero =>
    intro wait
    simp [fetchLoop]
  | succ f ih =>
    intro wait
    simp only [fetchLoop]
    cases hc : chan wait with
    | msg m => simp
    | disconnected => simp
    | empty =>
      split_ifs with h1 h2
      · simp
      · simp
      · simpa using Nat.succ_le_succ (ih (wait + 1))

/-- The polling loop makes at least one `try_recv` call when it has
fuel. -/
lemma fetchLoop_polls_pos (chan : Nat → Poll) (se cs : Bool) (rounds : Nat)
    (fuel wait : Nat) (h : 0 < fuel) :
    0 < (fetchLoop chan se cs rounds wait fuel).2 := by
  cases fuel with
  | zero => omega
  | succ f =>
    simp only [fetchLoop]
    cases hc : chan wait with
    | msg m => simp
    | disconnected => simp
    | empty => split_ifs <;> simp

/-- With the early skip disabled, the loop returns the first non-empty
poll outcome: a message at poll index `j` (all earlier polls empty,
`j` within the budget) is received after exactly `j + 1` polls, and a
disconnection there is reported after exactly `j + 1` polls. -/
lemma fetchLoop_first_hit (chan : Nat → Poll) (se cs : Bool) (rounds : Nat)
    (hskip : (cs && !se) = false) :
    ∀ j fuel wait, j < fuel → wait + j ≤ rounds →
      (∀ i, i < j → chan (wait + i) = Poll.empty) →
      ((∀ m, chan (wait + j) = Poll.msg m →
          fetchLoop chan se cs rounds wait fuel = (FetchResult.received m, j + 1))
       ∧ (chan (wait + j) = Poll.disconnected →
          fetchLoop chan se cs rounds wait fuel = (FetchResult.disconnected, j + 1))) := by
  intro j
  induction j with
  | zero =>
    intro fuel wait hf _ _
    cases fuel with
    | zero => omega
    | succ f =>
      constructor
      · intro m hm
        rw [Nat.add_zero] at hm
        simp [fetchLoop, hm]
      · intro hm
        rw [Nat.add_zero] at hm
        simp [fetchLoop, hm]
  | succ j ih =>
    intro fuel wait hf hr hemp
    cases fuel with
    | zero => omega
    | succ f =>
      have h0 : chan wait = Poll.empty := by
        simpa using hemp 0 (by omega)
      have hemp' : ∀ i, i < j → chan (wait + 1 + i) = Poll.empty := by
        intro i hi
        have := hemp (i + 1) (by omega)
        rwa [show wait + (i + 1) = wait + 1 + i from by omega] at this
      have hrec := ih f (wait + 1) (by omega) (by omega) hemp'
      have hlt : ¬ rounds < wait + 1 := by omega
      constructor
      · intro m hm
        have hm' : chan (wait + 1 + j) = Poll.msg m := by
          rwa [show wait + (j + 1) = wait + 1 + j from by omega] at hm
        have hstep := hrec.1 m hm'
        simp [fetchLoop, h0, hskip, hlt, hstep]
      · intro hm
        have hm' : chan (wait + 1 + j) = Poll.disconnected := by
          rwa [show wait + (j + 1) = wait + 1 + j from by omega] at hm
        have hstep := hrec.2 hm'
        simp [fetchLoop, h0, hskip, hlt, hstep]

/-- With the early skip disabled and every poll empty, the loop times out
after consuming all its fuel in `try_recv` calls. -/
lemma fetchLoop_all_empty (chan : Nat → Poll) (se cs : Bool) (rounds : Nat)
    (hskip : (cs && !se) = false) (hemp : ∀ k, chan k = Poll.empty) :
    ∀ fuel wait, wait + fuel = rounds + 1 → 0 < fuel →
      fetchLoop chan se cs rounds wait fuel = (FetchResult.timeout, fuel) := by
  intro fuel
  induction fuel with
  | zero =>
    intro wait _ h
    omega
  | succ f ih =>
    intro wait hsum _
    by_cases hf : f = 0
    · subst hf
      have hw : rounds < wait + 1 := by omega
      simp [fetchLoop, hemp wait, hskip, hw]
    · have hlt : ¬ rounds < wait + 1 := by omega
      have hstep := ih (wait + 1) (by omega) (by omega)
      simp [fetchLoop, hemp wait, hskip, hlt, hstep]

/-- C5 counterexample: on an always-empty channel, `fetch_work` performs
17 `try_recv` rounds for the long budget and 5 for the short one — one
more than the `ROUNDS` (16 resp. 4) the claim allows. -/
theorem c5_counterexample :
    (fetch_work (fun _ => Poll.empty) true false).2 = 17
    ∧ (fetch_work (fun _ => Poll.empty) true true).2 = 5 := by decide

/-- C5 (amended): `fetch_work(main, side_empty, can_skip)` performs at most
`ROUNDS + 1` non-blocking try-receives (`ROUNDS = 4` when `can_skip`, else
16); the first non-empty poll within the budget is acted on immediately (a
message is returned, a disconnection is reported); when `can_skip` holds
and the side channel is non-empty, the first poll decides the call (an
empty poll returns Timeout early); and when every poll is empty the call
returns Timeout after exhausting all `ROUNDS + 1` polls. -/
theorem c5_fetch_contract (chan : Nat → Poll) (se cs : Bool) :
    (fetch_work chan se cs).2
        ≤ (if cs = true then SHORT_PARKING_ROUNDS else LONG_PARKING_ROUNDS) + 1
    ∧ (∀ j, j ≤ (if cs = true then SHORT_PARKING_ROUNDS else LONG_PARKING_ROUNDS) →
        ¬(cs = true ∧ se = false) →
        (∀ i, i < j → chan i = Poll.empty) →
        (∀ m, chan j = Poll.msg m →
            fetch_work chan se cs = (FetchResult.received m, j + 1))
        ∧ (chan j = Poll.disconnected →
            fetch_work chan se cs = (FetchResult.disconnected, j + 1)))
    ∧ (cs = true → se = false →
        (∀ m, chan 0 = Poll.msg m → fetch_work chan se cs = (FetchResult.received m, 1))
        ∧ (chan 0 = Poll.disconnected →
            fetch_work chan se cs = (FetchResult.disconnected, 1))
        ∧ (chan 0 = Poll.empty → fetch_work chan se cs = (FetchResult.timeout, 1)))
    ∧ ((∀ k, chan k = Poll.empty) → ¬(cs = true ∧ se = false) →
        fetch_work chan se cs = (FetchResult.timeout,
          (if cs = true then SHORT_PARKING_ROUNDS else LONG_PARKING_ROUNDS) + 1)) := by
  have hconv : ∀ (c s : Bool), ¬(c = true ∧ s = false) → (c && !s) = false := by decide
  refine ⟨?_, ?_, ?_, ?_⟩
  · cases cs <;>
      simpa [fetch_work, SHORT_PARKING_ROUNDS, LONG_PARKING_ROUNDS] using
        fetchLoop_polls_le chan se _ _ _ 0
  · intro j hj hns hemp
    have hskip := hconv cs se hns
    have h := fetchLoop_first_hit chan se cs
      (if cs = true then SHORT_PARKING_ROUNDS else LONG_PARKING_ROUNDS)
      hskip j
      ((if cs = true then SHORT_PARKING_ROUNDS else LONG_PARKING_ROUNDS) + 1) 0
      (by omega) (by omega) (by simpa using hemp)
    constructor
    · intro m hm
      have := h.1 m (by simpa using hm)
      cases cs <;> simpa [fetch_work, SHORT_PARKING_ROUNDS, LONG_PARKING_ROUNDS]
        using this
    · intro hm
      have := h.2 (by simpa using hm)
      cases cs <;> simpa [fetch_work, SHORT_PARKING_ROUNDS, LONG_PARKING_ROUNDS]
        using this
  · intro hcs hse
    subst hcs; subst hse
    refine ⟨?_, ?_, ?_⟩
    · intro m hm
      simp [fetch_work, fetchLoop, SHORT_PARKING_ROUNDS, hm]
    · intro hm
      simp [fetch_work, fetchLoop, SHORT_PARKING_ROUNDS, hm]
    · intro hm
      simp [fetch_work, fetchLoop, SHORT_PARKING_ROUNDS, hm]
  · intro hemp hns
    have hskip := hconv cs se hns
    have h := fetchLoop_all_empty chan se cs
      (if cs = true then SHORT_PARKING_ROUNDS else LONG_PARKING_ROUNDS)
      hskip hemp
      ((if cs = true then SHORT_PARKING_ROUNDS else LONG_PARKING_ROUNDS) + 1) 0
      (by omega) (by omega)
    cases cs <;> simpa [fetch_work, SHORT_PARKING_ROUNDS, LONG_PARKING_ROUNDS]
      using h

/-- C5 witness: the amended contract evaluated on an always-empty channel
with the long budget (17 polls) and on a channel that answers the first
poll with a job. -/
theorem c5_fetch_contract_witness :
    fetch_work (fun _ => Poll.empty) true false = (FetchResult.timeout, 17)
    ∧ fetch_work (fun _ => Poll.msg (Message.newJob 5)) true false
        = (FetchResult.received (Message.newJob 5), 1) := by
  constructor
  · have h := (c5_fetch_contract (fun _ => Poll.empty) true false).2.2.2
      (fun k => rfl) (by simp)
    simpa [SHORT_PARKING_ROUNDS, LONG_PARKING_ROUNDS] using h
  · have h := ((c5_fetch_contract (fun _ => Poll.msg (Message.newJob 5)) true
      false).2.1 0 (by simp [LONG_PARKING_ROUNDS]) (by simp)
      (fun i hi => absurd hi (by omega))).1 (Message.newJob 5) rfl
    simpa using h

/-- C3: the observable round budgets of the normal-queue fetch inside
`check_queues`, on an idle pool: the worker with id 1 (`id mod 3 == 1`,
normal-biased) polls the normal channel only `SHORT_PARKING_ROUNDS + 1 = 5`
times (it is passed `can_skip = true`), while the worker with id 2
(`id mod 3 == 2`, fluid) polls it `LONG_PARKING_ROUNDS + 1 = 17` times —
the opposite of the long-park/short-park assignment the specification (and
the source's own comments) describe. -/
theorem c3_normal_fetch_budget :
    (check_queues 1 idleEnv 0 emptyCourier).normPolls = SHORT_PARKING_ROUNDS + 1
    ∧ (check_queues 2 idleEnv 0 emptyCourier).normPolls = LONG_PARKING_ROUNDS + 1 := by
  decide

/-- `fetch_work` always makes at least one `try_recv` call. -/
lemma fetch_work_polls_pos (chan : Nat → Poll) (se cs : Bool) :
    0 < (fetch_work chan se cs).2 := by
  cases cs <;>
    simpa [fetch_work, SHORT_PARKING_ROUNDS, LONG_PARKING_ROUNDS] using
      fetchLoop_polls_pos chan se _ _ _ 0 (by omega)

/-- `normPhase` polls the normal channel exactly as its fetch does,
whatever the outcome. -/
lemma normPhase_normPolls (id : Nat) (e : Env) (c : Nat) (cour : WorkCourier)
    (pp : Nat) :
    (normPhase id e c cour pp).normPolls
      = (fetch_work e.normChan e.priEmpty (id % LOT_COUNTS == 1)).2 := by
  simp only [normPhase]
  cases hf : (fetch_work e.normChan e.priEmpty (id % LOT_COUNTS == 1)).1 <;> simp

/-- `normPhase` reports the priority poll count it was handed. -/
lemma normPhase_priPolls (id : Nat) (e : Env) (c : Nat) (cour : WorkCourier)
    (pp : Nat) :
    (normPhase id e c cour pp).priPolls = pp := by
  simp only [normPhase]
  cases hf : (fetch_work e.normChan e.priEmpty (id % LOT_COUNTS == 1)).1 <;> simp

/-- A `check_queues` call entered with the sentinel 255 skips the priority
probe entirely (zero priority polls), leaves the counter reset to 0, and
probes the normal channel (at least one poll). -/
lemma cq_at_255 (id : Nat) (e : Env) (cour : WorkCourier) :
    (check_queues id e 255 cour).priPolls = 0
    ∧ (check_queues id e 255 cour).count = 0
    ∧ 0 < (check_queues id e 255 cour).normPolls := by
  have hform : check_queues id e 255 cour = normPhase id e 0 cour 0 := by
    simp [check_queues]
  refine ⟨?_, ?_, ?_⟩
  · rw [hform, normPhase_priPolls]
  · rw [hform]
    simp only [normPhase]
    cases hf : (fetch_work e.normChan e.priEmpty (id % LOT_COUNTS == 1)).1 <;> simp
  · rw [hform, normPhase_normPolls]
    exact fetch_work_polls_pos _ _ _

/-- A `check_queues` call that returns status 0 without polling the normal
channel can only have received from the priority channel: the entry
counter was below 255 and the exit counter is the priority-count update of
the entry counter. -/
lemma cq_received_characterization (id : Nat) (e : Env) (c : Nat)
    (cour : WorkCourier)
    (hs : (check_queues id e c cour).status = 0)
    (hn : (check_queues id e c cour).normPolls = 0) :
    c < 255 ∧ (check_queues id e c cour).count = priCountUpdate c e.normFull := by
  have hpos := fetch_work_polls_pos e.normChan e.priEmpty (id % LOT_COUNTS == 1)
  by_cases hc : c < 255
  · refine ⟨hc, ?_⟩
    cases hf : (fetch_work e.priChan e.normEmpty (!(id % LOT_COUNTS == 0))).1 with
    | received m =>
      simp [check_queues, if_pos hc, hf]
    | disconnected =>
      have hform : (check_queues id e c cour).status = -1 := by
        simp [check_queues, if_pos hc, hf]
      rw [hform] at hs
      exact absurd hs (by decide)
    | timeout =>
      have hform : (check_queues id e c cour).normPolls
          = (fetch_work e.normChan e.priEmpty (id % LOT_COUNTS == 1)).2 := by
        simp [check_queues, if_pos hc, hf, normPhase_normPolls]
      rw [hform] at hn
      omega
  · exfalso
    have hform : (check_queues id e c cour).normPolls
        = (fetch_work e.normChan e.priEmpty (id % LOT_COUNTS == 1)).2 := by
      simp [check_queues, hc, normPhase_normPolls]
    rw [hform] at hn
    omega

/-- C6 counterexample: worker 3 (priority-biased). With the normal queue
observed full throughout, five consecutive `check_queues` calls each
deliver a priority job without a single poll of the normal channel (the
claim allows at most four); and with the normal queue pending but not
full, six consecutive calls deliver priority jobs with the counter parked
at 4, never probing the normal channel at all. -/
theorem c6_counterexample :
    (∀ i, i < 5 → (stepObs 3 (fun _ => priFloodFullEnv) i).status = 0
      ∧ (stepObs 3 (fun _ => priFloodFullEnv) i).courier.work = some 7
      ∧ (stepObs 3 (fun _ => priFloodFullEnv) i).normPolls = 0)
    ∧ countAfter 3 (fun _ => priFloodFullEnv) 5 = 255
    ∧ (∀ i, i < 6 → (stepObs 3 (fun _ => priFloodPendingEnv) i).status = 0
      ∧ (stepObs 3 (fun _ => priFloodPendingEnv) i).courier.work = some 7
      ∧ (stepObs 3 (fun _ => priFloodPendingEnv) i).normPolls = 0)
    ∧ countAfter 3 (fun _ => priFloodPendingEnv) 6 = 4 := by decide

/-- C6 (amended): the counter increments by one on each priority receive
while below 4; from 4 on, a priority receive with the normal queue
observed full sets it to 255; a call entered at 255 makes no priority poll,
resets the counter to 0 and polls the normal channel; hence, while the
normal queue is observed full, a worker performs at most 5 consecutive
priority receives before its next call probes the normal queue. -/
theorem c6_priority_yield (id : Nat) (envs : Nat → Env) (_hrole : id % 3 = 0)
    (hfull : ∀ i, i < 5 → (envs i).normFull = true)
    (hpri : ∀ i, i < 5 → (stepObs id envs i).status = 0
      ∧ (stepObs id envs i).normPolls = 0) :
    countAfter id envs 5 = 255
    ∧ (stepObs id envs 5).priPolls = 0
    ∧ (stepObs id envs 5).count = 0
    ∧ 0 < (stepObs id envs 5).normPolls
    ∧ (∀ c f, c < 4 → priCountUpdate c f = c + 1)
    ∧ (∀ c, 4 ≤ c → priCountUpdate c true = 255)
    ∧ (∀ (e : Env) (c : Nat) (cour : WorkCourier) (pp : Nat) (m : Message),
        (fetch_work e.normChan e.priEmpty (id % LOT_COUNTS == 1)).1
          = FetchResult.received m →
        (normPhase id e c cour pp).count = 0) := by
  have hstep : ∀ i, i < 5 →
      countAfter id envs (i + 1) = priCountUpdate (countAfter id envs i) true := by
    intro i hi
    have h := cq_received_characterization id (envs i) (countAfter id envs i)
      emptyCourier (hpri i hi).1 (hpri i hi).2
    have hrw : countAfter id envs (i + 1)
        = (check_queues id (envs i) (countAfter id envs i) emptyCourier).count := rfl
    rw [hrw, h.2, hfull i hi]
  have h0 : countAfter id envs 0 = 0 := rfl
  have h1 : countAfter id envs 1 = 1 := by
    rw [hstep 0 (by omega), h0]
    decide
  have h2 : countAfter id envs 2 = 2 := by
    rw [hstep 1 (by omega), h1]
    decide
  have h3 : countAfter id envs 3 = 3 := by
    rw [hstep 2 (by omega), h2]
    decide
  have h4 : countAfter id envs 4 = 4 := by
    rw [hstep 3 (by omega), h3]
    decide
  have h5 : countAfter id envs 5 = 255 := by
    rw [hstep 4 (by omega), h4]
    decide
  have hobs : stepObs id envs 5 = check_queues id (envs 5) 255 emptyCourier := by
    unfold stepObs
    rw [h5]
  refine ⟨h5, ?_, ?_, ?_, ?_, ?_, ?_⟩
  · rw [hobs]
    exact (cq_at_255 id (envs 5) emptyCourier).1
  · rw [hobs]
    exact (cq_at_255 id (envs 5) emptyCourier).2.1
  · rw [hobs]
    exact (cq_at_255 id (envs 5) emptyCourier).2.2
  · intro c f hcf
    simp [priCountUpdate, hcf]
  · intro c hc
    simp [priCountUpdate, show ¬ c < 4 from by omega]
  · intro e c cour pp m hm
    simp [normPhase, hm]

/-- C6 witness: the amended statement instantiated with worker 3 flooded
by priority jobs while the normal queue stays full. -/
theorem c6_priority_yield_witness :
    countAfter 3 (fun _ => priFloodFullEnv) 5 = 255
    ∧ 0 < (stepObs 3 (fun _ => priFloodFullEnv) 5).normPolls := by
  have h := c6_priority_yield 3 (fun _ => priFloodFullEnv) (by decide)
    (fun i _ => rfl) (by decide)
  exact ⟨h.1, h.2.2.2.1⟩

/-- C9 counterexample: a pool created with requested size 0 has worker ids
`[1]`, not the ids `1..=0` (the empty sequence) the claim assigns to it. -/
theorem c9_counterexample : (CPool.new 0).workers ≠ idsUpTo 0 := by decide

/-- C9 (amended): a pool created with requested size `n` assigns ids
`1..=max 1 n`; `extend k` (for `k > 0`) assigns ids
`last_id+1..=last_id+k`; no worker is ever assigned id 0, every stored id
is bounded by `last_id`, and every id assigned by `extend` is strictly
larger than every previously assigned id. -/
theorem c9_worker_ids (n k : Nat) (p : CPool) :
    (CPool.new n).workers = idsUpTo (max 1 n)
    ∧ (CPool.new n).last_id = max 1 n
    ∧ 0 ∉ (CPool.new n).workers
    ∧ (CPool.new n).WF
    ∧ (0 < k → (p.extend k).workers
        = p.workers ++ (List.range k).map (fun i => p.last_id + 1 + i))
    ∧ (0 < k → (p.extend k).last_id = p.last_id + k)
    ∧ (p.WF → 0 ∉ (p.extend k).workers ∧ (p.extend k).WF
        ∧ ∀ a ∈ p.workers, ∀ b ∈ (List.range k).map (fun i => p.last_id + 1 + i),
          a < b) := by
  have hsize : (if n < 1 then 1 else n) = max 1 n := by split_ifs <;> omega
  refine ⟨?_, ?_, ?_, ?_, ?_, ?_, ?_⟩
  · simp only [CPool.new, idsUpTo, hsize]
  · simp only [CPool.new, hsize]
    omega
  · simp only [CPool.new, List.mem_map, List.mem_range]
    rintro ⟨i, -, hi⟩
    omega
  · intro i hi
    simp only [CPool.new, List.mem_map, List.mem_range, hsize] at hi ⊢
    obtain ⟨j, hj, rfl⟩ := hi
    omega
  · intro hk
    simp only [CPool.extend, if_neg (by omega : ¬k = 0)]
  · intro hk
    simp only [CPool.extend, if_neg (by omega : ¬k = 0)]
  · intro hwf
    by_cases hk : k = 0
    · subst hk
      refine ⟨?_, ?_, ?_⟩
      · simp only [CPool.extend, if_pos rfl]
        intro h0
        exact absurd (hwf 0 h0).1 (by omega)
      · simpa only [CPool.extend, if_pos rfl] using hwf
      · intro a _ b hb
        simp at hb
    · refine ⟨?_, ?_, ?_⟩
      · simp only [CPool.extend, if_neg hk, List.mem_append, List.mem_map,
          List.mem_range]
        rintro (h0 | ⟨i, -, hi⟩)
        · exact absurd (hwf 0 h0).1 (by omega)
        · omega
      · intro i hi
        simp only [CPool.extend, if_neg hk, List.mem_append, List.mem_map,
          List.mem_range] at hi ⊢
        rcases hi with h0 | ⟨j, hj, rfl⟩
        · have := hwf i h0
          omega
        · omega
      · intro a ha b hb
        simp only [List.mem_map, List.mem_range] at hb
        obtain ⟨j, -, rfl⟩ := hb
        have := (hwf a ha).2
        omega

/-- C9 witness: the amended statement evaluated at a pool of requested
size 2 extended by 1 worker. -/
theorem c9_worker_ids_witness :
    ((CPool.new 2).extend 1).workers = [1, 2, 3]
    ∧ 0 ∉ ((CPool.new 2).extend 1).workers := by
  obtain ⟨-, -, -, hwf, hext, -, hpres⟩ := c9_worker_ids 2 1 (CPool.new 2)
  refine ⟨?_, (hpres hwf).1⟩
  rw [hext (by decide)]
  decide

/-- The `found = true` tail of the `get_next_worker_id` scan returns the
next stored id. -/
lemma scanNext_true (current_id : Nat) (ws : List Nat) :
    scanNext current_id ws true = ws.head? := by
  cases ws <;> simp [scanNext]

/-- The `get_next_worker_id` scan agrees with the claim's description of
it. -/
lemma scanNext_false (current_id : Nat) (ws : List Nat) :
    scanNext current_id ws false = nextAfterSpec current_id ws := by
  induction ws with
  | nil => simp [scanNext, nextAfterSpec]
  | cons w rest ih =>
    simp only [scanNext, nextAfterSpec, if_neg (by simp : ¬false = true)]
    by_cases hw : w = current_id
    · simp [hw, scanNext_true]
    · have hbeq : (w == current_id) = false := by simpa using hw
      simp [hw, hbeq, ih]

/-- C10: `get_next_worker_id(current_id)` is `none` whenever `current_id`
is at least the number of live workers — also when a worker with that id
exists and has a successor, as in the concrete pool `[5, 9]` — and
otherwise returns the id stored immediately after the first worker whose
id equals `current_id` (`none` when no worker has that id or it is
last). -/
theorem c10_get_next_worker_id (p : CPool) (current_id : Nat) :
    (p.get_next_worker_id current_id =
      if p.workers.length ≤ current_id then none
      else nextAfterSpec current_id p.workers)
    ∧ CPool.get_next_worker_id { workers := [5, 9], last_id := 9 } 5 = none := by
  constructor
  · unfold CPool.get_next_worker_id
    split_ifs
    · rfl
    · exact scanNext_false current_id p.workers
  · decide

end ThreadPoolSpec
